import Mathlib

/-!
Verification of the Facelog attendance system (src/main.py).

The program keeps per-day attendance state: a set `marked_today` of names
already recorded present today, a map `face_state` from name to an
in-frame/out-of-frame marker, the `last_checked_date`, and an append-only
CSV log of attendance records.  The capture loop processes camera frames:
it first calls `reset_daily_attendance`, then for each detected face either
marks a newly seen person present or labels a returning person, and finally
moves every `IN_FRAME_FIRST_TIME` name that was not seen this frame to
`LEFT_FRAME`.  A small HTTP surface exposes statistics and a
password-gated download of the log.

The embedding below follows main.py line by line.  Face recognition is
external to the repository, so a detected face is abstracted to
`Option String`: `some name` when the recognition library matched a known
person (the first match, as the code takes `matched_names[0]`), `none`
when no known signature matched.
-/

namespace Facelog

/-- The two per-person frame markers used by main.py (stored as the strings
"IN_FRAME_FIRST_TIME" and "LEFT_FRAME" in the Python dict `face_state`). -/
inductive FState where
  | IN_FRAME_FIRST_TIME
  | LEFT_FRAME
deriving DecidableEq, Repr

/-- One row of the attendance log: `writer.writerow([today_date, current_time, name, "Present"])`
writes exactly these four fields (main.py line 102). -/
structure AttendanceRecord where
  date : String
  time : String
  name : String
  status : String
deriving DecidableEq, Repr

/-- The module-level mutable state of main.py: `known_face_names` (loaded once
from the students folder), `marked_today` (a Python set), `face_state`
(a Python dict, modelled as a partial map), `last_checked_date`
(initially `None`), and the contents of the attendance CSV as records. -/
structure State where
  known_face_names : List String
  marked_today : Finset String
  face_state : String → Option FState
  last_checked_date : Option String
  log : List AttendanceRecord

/-- The state at process start: empty daily state, `last_checked_date = None`,
with whatever gallery and log file were found on disk. -/
def initState (known : List String) (log : List AttendanceRecord) : State :=
  { known_face_names := known
    marked_today := ∅
    face_state := fun _ => none
    last_checked_date := none
    log := log }

/-- `load_marked_today_from_csv` restricted to the in-memory record view of the
log: collect the names of all records dated `today` with status "Present"
(main.py lines 62-66, starting from a cleared set, line 55). -/
def marked_from_log (log : List AttendanceRecord) (today : String) : Finset String :=
  log.foldl
    (fun s r => if r.date = today ∧ r.status = "Present" then insert r.name s else s) ∅

/-- One data row of the CSV as processed by `load_marked_today_from_csv`
(main.py lines 62-66): rows with fewer than 4 fields are skipped by the
`len(row) >= 4` guard; rows with exactly 4 fields are unpacked as
`date, time_log, student_name, status = row`; a row with more than 4 fields
passes the guard but the 4-variable unpacking raises a ValueError. -/
def parseDataRow (today : String) (s : Finset String) (row : List String) :
    Except String (Finset String) :=
  if 4 ≤ row.length then
    match row with
    | [date, _time_log, student_name, status] =>
      Except.ok (if date = today ∧ status = "Present" then insert student_name s else s)
    | _ => Except.error "ValueError: too many values to unpack"
  else
    Except.ok s

/-- The row loop of `load_marked_today_from_csv`: data rows are processed in
order, and a raised exception aborts the loop. -/
def load_rows (today : String) (s : Finset String) :
    List (List String) → Except String (Finset String)
  | [] => Except.ok s
  | row :: rest =>
    match parseDataRow today s row with
    | Except.ok s1 => load_rows today s1 rest
    | Except.error e => Except.error e

/-- `load_marked_today_from_csv` over the raw CSV file (a list of rows, each a
list of fields): `next(reader)` consumes the header row (raising on an empty
file), then every data row is processed in order into the cleared
`marked_today` set (main.py lines 49-66). -/
def load_marked_today_from_csv (today : String) (file : List (List String)) :
    Except String (Finset String) :=
  match file with
  | [] => Except.error "StopIteration"
  | _header :: rows => load_rows today ∅ rows

/-- Serialization of a record to a CSV row, as written by `mark_attendance`. -/
def recordRow (r : AttendanceRecord) : List String :=
  [r.date, r.time, r.name, r.status]

/-- `reset_daily_attendance` (main.py lines 69-82): when the current date
differs from `last_checked_date`, clear `marked_today` and `face_state`, set
`last_checked_date`, and reload `marked_today` from the log; otherwise no-op. -/
def reset_daily_attendance (today : String) (st : State) : State :=
  if st.last_checked_date ≠ some today then
    { st with
      marked_today := marked_from_log st.log today
      face_state := fun _ => none
      last_checked_date := some today }
  else st

/-- `is_already_present_today` (main.py lines 85-89): membership in `marked_today`. -/
def is_already_present_today (st : State) (name : String) : Bool :=
  decide (name ∈ st.marked_today)

/-- `mark_attendance` (main.py lines 92-104): append
`[today_date, current_time, name, "Present"]` to the CSV and add `name` to
`marked_today`. -/
def mark_attendance (today time name : String) (st : State) : State :=
  { st with
    log := st.log ++ [⟨today, time, name, "Present"⟩]
    marked_today := insert name st.marked_today }

/-- The accumulator of the per-frame face loop (main.py lines 129-163):
the evolving state, `faces_found_this_frame`, and `labels_for_frame`
(only the text labels matter for the claims; bounding boxes are dropped). -/
structure FrameAcc where
  st : State
  faces_found_this_frame : Finset String
  labels_for_frame : List String

/-- Processing of one detected face (main.py lines 133-163).  `none` means the
recognition library found no match among the known signatures, so the label
stays "Not Available".  `some recognized_name` is `matched_names[0]`: the name
is added to `faces_found_this_frame`; if not yet present today it is marked
present, enters `face_state` as `IN_FRAME_FIRST_TIME`, and is labelled
"Present: name"; otherwise the label depends on its current `face_state`
(`face_state.get` yields `none` for an absent key, which falls to the
"Already Present" branch just like `LEFT_FRAME`). -/
def faceStep (today time : String) (acc : FrameAcc) (face : Option String) : FrameAcc :=
  match face with
  | none =>
    { acc with labels_for_frame := acc.labels_for_frame ++ ["Not Available"] }
  | some recognized_name =>
    let found := insert recognized_name acc.faces_found_this_frame
    if is_already_present_today acc.st recognized_name = false then
      let st1 := mark_attendance today time recognized_name acc.st
      { st :=
          { st1 with
            face_state := fun n =>
              if n = recognized_name then some FState.IN_FRAME_FIRST_TIME
              else st1.face_state n }
        faces_found_this_frame := found
        labels_for_frame := acc.labels_for_frame ++ ["Present: " ++ recognized_name] }
    else
      match acc.st.face_state recognized_name with
      | some FState.IN_FRAME_FIRST_TIME =>
        { acc with
          faces_found_this_frame := found
          labels_for_frame := acc.labels_for_frame ++ ["Present: " ++ recognized_name] }
      | _ =>
        { acc with
          faces_found_this_frame := found
          labels_for_frame := acc.labels_for_frame ++ ["Already Present: " ++ recognized_name] }

/-- The end-of-frame update (main.py lines 166-168): every name whose state is
`IN_FRAME_FIRST_TIME` and which was not found this frame moves to
`LEFT_FRAME`; keys are never added or removed here. -/
def updateDepartures (found : Finset String) (fs : String → Option FState) :
    String → Option FState :=
  fun n =>
    if fs n = some FState.IN_FRAME_FIRST_TIME ∧ n ∉ found then some FState.LEFT_FRAME
    else fs n

/-- One full frame of the capture loop body after the date check: process each
face in order, then apply the departure update; returns the new state and
the labels drawn on the frame (main.py lines 129-168). -/
def processFrame (today time : String) (faces : List (Option String)) (st : State) :
    State × List String :=
  let acc := faces.foldl (faceStep today time) ⟨st, ∅, []⟩
  ({ acc.st with
     face_state := updateDepartures acc.faces_found_this_frame acc.st.face_state },
   acc.labels_for_frame)

/-- One iteration of the `while True` capture loop (main.py lines 118-168):
`reset_daily_attendance()` first, then the frame is processed. -/
def stepFrame (today time : String) (faces : List (Option String)) (st : State) :
    State × List String :=
  processFrame today time faces (reset_daily_attendance today st)

/-- The operations that touch the daily state, for reachability statements:
a date check, a direct attendance mark, or a full capture-loop iteration. -/
inductive Step where
  | reset (today : String)
  | mark (today time name : String)
  | frame (today time : String) (faces : List (Option String))

/-- Apply one operation to the state. -/
def applyStep (st : State) : Step → State
  | Step.reset today => reset_daily_attendance today st
  | Step.mark today time name => mark_attendance today time name st
  | Step.frame today time faces => (stepFrame today time faces st).1

/-- Run a sequence of operations. -/
def run (st : State) (steps : List Step) : State :=
  steps.foldl applyStep st

/-- Input of one capture-loop iteration: the observed date and time and the
recognition results for the faces detected in the frame. -/
structure FrameInput where
  today : String
  time : String
  faces : List (Option String)
deriving Repr

/-- Run the capture loop proper over a sequence of frames: each iteration is
`stepFrame` (date check followed by frame processing), as in main.py's
`while True` loop. -/
def runLoop (st : State) (frames : List FrameInput) : State :=
  frames.foldl (fun s f => (stepFrame f.today f.time f.faces s).1) st

/-- The fixed download secret (main.py line 218). -/
def REQUIRED_PASSWORD : String := "admin@123"

/-- Responses of the `/download_csv` endpoint. -/
inductive DownloadResp where
  | badRequest (error : String)
  | unauthorized (error : String)
  | okFile
  | notFound (message : String)
deriving DecidableEq, Repr

/-- `download_csv` (main.py lines 213-229).  `request.args.get("pwd")` yields
`none` when the parameter is missing; Python's `if not user_password` is
truthiness, so both `None` and the empty string take the 400 branch. -/
def download_csv (pwd : Option String) (attendance_file_exists : Bool) : DownloadResp :=
  match pwd with
  | none => DownloadResp.badRequest "No password provided."
  | some p =>
    if p = "" then DownloadResp.badRequest "No password provided."
    else if p = REQUIRED_PASSWORD then
      if attendance_file_exists then DownloadResp.okFile
      else DownloadResp.notFound "No attendance records available!"
    else DownloadResp.unauthorized "Incorrect password."

/-- JSON body of `/attendance_stats`. -/
structure StatsResp where
  total_students : Nat
  present_today : Nat
deriving DecidableEq, Repr

/-- `attendance_stats` (main.py lines 232-240): reads only the gallery size and
`marked_today`; the handler assigns to no module state, so the state is
returned unchanged. -/
def attendance_stats (st : State) : StatsResp × State :=
  ({ total_students := st.known_face_names.length
     present_today := st.marked_today.card }, st)

/-- JSON body of `/extended_attendance`.  Python's `-` on ints and `/` on a
nonneg quotient are modelled exactly on ℤ and ℚ. -/
structure ExtStatsResp where
  total_students : Nat
  present : Nat
  absent : Int
  percentage : ℚ
deriving DecidableEq, Repr

/-- `extended_attendance` (main.py lines 243-254): absent = total - present,
percentage = present / total * 100 guarded by `total_students > 0`, else 0;
the handler assigns to no module state, so the state is returned unchanged. -/
def extended_attendance (st : State) : ExtStatsResp × State :=
  let total_students := st.known_face_names.length
  let present := st.marked_today.card
  ({ total_students := total_students
     present := present
     absent := (total_students : Int) - (present : Int)
     percentage :=
       if total_students > 0 then (present : ℚ) / (total_students : ℚ) * 100 else 0 }, st)

/-! ### Basic lemmas about the log scan -/

theorem mem_foldl_marked (today : String) :
    ∀ (log : List AttendanceRecord) (s : Finset String) (n : String),
      (n ∈ log.foldl
        (fun s r => if r.date = today ∧ r.status = "Present" then insert r.name s else s) s) ↔
      n ∈ s ∨ ∃ r ∈ log, r.date = today ∧ r.status = "Present" ∧ r.name = n := by
  intro log
  induction log with
  | nil => intro s n; simp
  | cons r t ih =>
    intro s n
    simp only [List.foldl_cons]
    rw [ih]
    by_cases h : r.date = today ∧ r.status = "Present"
    · simp only [if_pos h, Finset.mem_insert, List.mem_cons]
      constructor
      · rintro (⟨rfl | hn⟩ | ⟨r', hr', hp⟩)
        · exact Or.inr ⟨r, Or.inl rfl, h.1, h.2, rfl⟩
        · exact Or.inl hn
        · exact Or.inr ⟨r', Or.inr hr', hp⟩
      · rintro (hn | ⟨r', hr' | hr', hp⟩)
        · exact Or.inl (Or.inr hn)
        · subst hr'; exact Or.inl (Or.inl hp.2.2.symm)
        · exact Or.inr ⟨r', hr', hp⟩
    · simp only [if_neg h, List.mem_cons]
      constructor
      · rintro (hn | ⟨r', hr', hp⟩)
        · exact Or.inl hn
        · exact Or.inr ⟨r', Or.inr hr', hp⟩
      · rintro (hn | ⟨r', hr' | hr', hp⟩)
        · exact Or.inl hn
        · exact absurd ⟨hr' ▸ hp.1, hr' ▸ hp.2.1⟩ h
        · exact Or.inr ⟨r', hr', hp⟩

theorem mem_marked_from_log (log : List AttendanceRecord) (today n : String) :
    n ∈ marked_from_log log today ↔
      ∃ r ∈ log, r.date = today ∧ r.status = "Present" ∧ r.name = n := by
  unfold marked_from_log
  rw [mem_foldl_marked]
  simp

/-! ### The face-state containment invariant (spec §3) -/

/-- Every key of `face_state` is a member of `marked_today`. -/
def FsInv (st : State) : Prop :=
  ∀ n fs, st.face_state n = some fs → n ∈ st.marked_today

theorem FsInv_initState (known : List String) (log : List AttendanceRecord) :
    FsInv (initState known log) := by
  intro n fs h
  simp [initState] at h

theorem FsInv_reset (today : String) (st : State) (h : FsInv st) :
    FsInv (reset_daily_attendance today st) := by
  unfold reset_daily_attendance
  split
  · intro n fs hn; simp at hn
  · exact h

theorem FsInv_mark (today time name : String) (st : State) (h : FsInv st) :
    FsInv (mark_attendance today time name st) := by
  intro n fs hn
  simp only [mark_attendance] at hn ⊢
  exact Finset.mem_insert_of_mem (h n fs hn)

theorem FsInv_faceStep (today time : String) (acc : FrameAcc) (face : Option String)
    (h : FsInv acc.st) : FsInv (faceStep today time acc face).st := by
  match face with
  | none => exact h
  | some recognized_name =>
    simp only [faceStep]
    split
    · intro n fs hn
      simp only [mark_attendance] at hn ⊢
      by_cases hn' : n = recognized_name
      · subst hn'; exact Finset.mem_insert_self _ _
      · rw [if_neg hn'] at hn
        exact Finset.mem_insert_of_mem (h n fs hn)
    · split <;> exact h

theorem FsInv_foldl_faceStep (today time : String) :
    ∀ (faces : List (Option String)) (acc : FrameAcc), FsInv acc.st →
      FsInv ((faces.foldl (faceStep today time) acc).st) := by
  intro faces
  induction faces with
  | nil => intro acc h; exact h
  | cons f t ih =>
    intro acc h
    exact ih _ (FsInv_faceStep today time acc f h)

theorem FsInv_processFrame (today time : String) (faces : List (Option String))
    (st : State) (h : FsInv st) : FsInv (processFrame today time faces st).1 := by
  have hacc := FsInv_foldl_faceStep today time faces ⟨st, ∅, []⟩ h
  intro n fs hn
  simp only [processFrame, updateDepartures] at hn ⊢
  split at hn
  · rename_i hc
    exact hacc n _ hc.1
  · exact hacc n fs hn

theorem FsInv_stepFrame (today time : String) (faces : List (Option String))
    (st : State) (h : FsInv st) : FsInv (stepFrame today time faces st).1 :=
  FsInv_processFrame today time faces _ (FsInv_reset today st h)

theorem FsInv_applyStep (st : State) (s : Step) (h : FsInv st) : FsInv (applyStep st s) := by
  match s with
  | Step.reset today => exact FsInv_reset today st h
  | Step.mark today time name => exact FsInv_mark today time name st h
  | Step.frame today time faces => exact FsInv_stepFrame today time faces st h

theorem FsInv_run (steps : List Step) : ∀ (st : State), FsInv st → FsInv (run st steps) := by
  induction steps with
  | nil => intro st h; exact h
  | cons s t ih =>
    intro st h
    exact ih _ (FsInv_applyStep st s h)

/-! ### Effect lemmas for the per-face loop -/

theorem faceStep_last_checked (today time : String) (acc : FrameAcc) (face : Option String) :
    (faceStep today time acc face).st.last_checked_date = acc.st.last_checked_date := by
  match face with
  | none => rfl
  | some recognized_name =>
    simp only [faceStep]
    split
    · rfl
    · split <;> rfl

theorem faceStep_marked_sub (today time : String) (acc : FrameAcc) (face : Option String) :
    acc.st.marked_today ⊆ (faceStep today time acc face).st.marked_today := by
  match face with
  | none => exact Finset.Subset.refl _
  | some recognized_name =>
    simp only [faceStep]
    split
    · exact Finset.subset_insert _ _
    · split <;> exact Finset.Subset.refl _

theorem faceStep_face_state_other (today time : String) (acc : FrameAcc)
    (face : Option String) (name : String) (h : face ≠ some name) :
    (faceStep today time acc face).st.face_state name = acc.st.face_state name := by
  match face with
  | none => rfl
  | some recognized_name =>
    have hne : name ≠ recognized_name := by
      intro he; exact h (by rw [he])
    simp only [faceStep]
    split
    · simp [mark_attendance, hne]
    · split <;> rfl

theorem faceStep_face_state_of_marked (today time : String) (acc : FrameAcc)
    (face : Option String) (name : String) (h : name ∈ acc.st.marked_today) :
    (faceStep today time acc face).st.face_state name = acc.st.face_state name := by
  match face with
  | none => rfl
  | some recognized_name =>
    by_cases he : recognized_name = name
    · subst he
      simp only [faceStep]
      split
      · rename_i hc
        simp [is_already_present_today, h] at hc
      · split <;> rfl
    · exact faceStep_face_state_other today time acc (some recognized_name) name
        (by intro hc; exact he (Option.some.inj hc))

theorem faceStep_found_other (today time : String) (acc : FrameAcc)
    (face : Option String) (name : String) (h : face ≠ some name)
    (h2 : name ∉ acc.faces_found_this_frame) :
    name ∉ (faceStep today time acc face).faces_found_this_frame := by
  match face with
  | none => exact h2
  | some recognized_name =>
    have hne : name ≠ recognized_name := by
      intro he; exact h (by rw [he])
    simp only [faceStep]
    split
    · simp [Finset.mem_insert, hne, h2]
    · split <;> simp [Finset.mem_insert, hne, h2]

theorem foldl_faceStep_absent (today time name : String) :
    ∀ (faces : List (Option String)) (acc : FrameAcc),
      (some name) ∉ faces → name ∉ acc.faces_found_this_frame →
      (faces.foldl (faceStep today time) acc).st.face_state name = acc.st.face_state name ∧
      name ∉ (faces.foldl (faceStep today time) acc).faces_found_this_frame := by
  intro faces
  induction faces with
  | nil => intro acc _ h2; exact ⟨rfl, h2⟩
  | cons f t ih =>
    intro acc h h2
    have hf : f ≠ some name := by
      intro he; exact h (he ▸ List.mem_cons_self f t)
    have ht : (some name) ∉ t := fun hm => h (List.mem_cons_of_mem f hm)
    have := ih (faceStep today time acc f) ht
      (faceStep_found_other today time acc f name hf h2)
    rw [List.foldl_cons]
    exact ⟨(this.1).trans (faceStep_face_state_other today time acc f name hf), this.2⟩

theorem foldl_faceStep_of_marked (today time name : String) :
    ∀ (faces : List (Option String)) (acc : FrameAcc), name ∈ acc.st.marked_today →
      (faces.foldl (faceStep today time) acc).st.face_state name = acc.st.face_state name ∧
      name ∈ (faces.foldl (faceStep today time) acc).st.marked_today := by
  intro faces
  induction faces with
  | nil => intro acc h; exact ⟨rfl, h⟩
  | cons f t ih =>
    intro acc h
    have hm := faceStep_marked_sub today time acc f h
    have := ih (faceStep today time acc f) hm
    rw [List.foldl_cons]
    exact ⟨(this.1).trans (faceStep_face_state_of_marked today time acc f name h), this.2⟩

theorem foldl_faceStep_last_checked (today time : String) :
    ∀ (faces : List (Option String)) (acc : FrameAcc),
      (faces.foldl (faceStep today time) acc).st.last_checked_date =
        acc.st.last_checked_date := by
  intro faces
  induction faces with
  | nil => intro acc; rfl
  | cons f t ih =>
    intro acc
    rw [List.foldl_cons]
    exact (ih _).trans (faceStep_last_checked today time acc f)

theorem reset_same_day (today : String) (st : State)
    (h : st.last_checked_date = some today) :
    reset_daily_attendance today st = st := by
  unfold reset_daily_attendance
  rw [if_neg (by simp [h])]

/-! ### Claims -/

/-- Claim C8: in every state reachable by any sequence of capture-loop
operations (`reset_daily_attendance`, `mark_attendance`, full frame
iterations) from the initial state, every name that is a key of `face_state`
is also a member of `marked_today`. -/
theorem C8_face_state_subset_marked (known : List String) (log : List AttendanceRecord)
    (steps : List Step) :
    ∀ n fs, (run (initState known log) steps).face_state n = some fs →
      n ∈ (run (initState known log) steps).marked_today :=
  FsInv_run steps (initState known log) (FsInv_initState known log)

/-- Claim C1: when `reset_daily_attendance` observes a date different from
`last_checked_date`, it resets `marked_today` to exactly the names of the
log's Present records dated today, clears `face_state`, and sets
`last_checked_date` to today; in particular `is_already_present_today` then
holds exactly for names with a Present record dated today. -/
theorem C1_day_rollover_reset (st : State) (today : String)
    (h : st.last_checked_date ≠ some today) :
    (reset_daily_attendance today st).marked_today = marked_from_log st.log today ∧
    (reset_daily_attendance today st).face_state = (fun _ => none) ∧
    (reset_daily_attendance today st).last_checked_date = some today ∧
    (∀ n, is_already_present_today (reset_daily_attendance today st) n = true ↔
      ∃ r ∈ st.log, r.date = today ∧ r.status = "Present" ∧ r.name = n) := by
  unfold reset_daily_attendance
  rw [if_pos h]
  refine ⟨rfl, rfl, rfl, ?_⟩
  intro n
  simp only [is_already_present_today, decide_eq_true_eq]
  exact mem_marked_from_log st.log today n

/-- A log holding a single Present record for Alice dated 2025-01-01, in a
fresh process state. -/
def aliceState : State :=
  initState ["Alice"] [⟨"2025-01-01", "09:00:00", "Alice", "Present"⟩]

/-- Witness for C1 at the spec's own example: crossing into 2025-01-02 with a
log containing only yesterday's record for Alice leaves Alice not present. -/
theorem C1_day_rollover_reset_witness :
    aliceState.last_checked_date ≠ some "2025-01-02" ∧
    (reset_daily_attendance "2025-01-02" aliceState).last_checked_date = some "2025-01-02" ∧
    is_already_present_today (reset_daily_attendance "2025-01-02" aliceState) "Alice" = false := by
  have h : aliceState.last_checked_date ≠ some "2025-01-02" := by
    simp [aliceState, initState]
  have hmain := C1_day_rollover_reset aliceState "2025-01-02" h
  refine ⟨h, hmain.2.2.1, ?_⟩
  have hiff := hmain.2.2.2 "Alice"
  rcases hb : is_already_present_today (reset_daily_attendance "2025-01-02" aliceState) "Alice" with _ | _
  · rfl
  · exfalso
    rcases hiff.mp hb with ⟨r, hr, hd, _, _⟩
    simp only [aliceState, initState, List.mem_singleton] at hr
    subst hr
    exact absurd hd (by decide)

theorem stepFrame_keeps_departed (today time name : String) (faces : List (Option String))
    (st : State) (h1 : st.last_checked_date = some today) (h2 : name ∈ st.marked_today)
    (h3 : st.face_state name = some FState.LEFT_FRAME) :
    (stepFrame today time faces st).1.last_checked_date = some today ∧
    name ∈ (stepFrame today time faces st).1.marked_today ∧
    (stepFrame today time faces st).1.face_state name = some FState.LEFT_FRAME := by
  unfold stepFrame
  rw [reset_same_day today st h1]
  have hm := foldl_faceStep_of_marked today time name faces ⟨st, ∅, []⟩ h2
  have hl := foldl_faceStep_last_checked today time faces ⟨st, ∅, []⟩
  refine ⟨hl.trans h1, hm.2, ?_⟩
  show updateDepartures (faces.foldl (faceStep today time) ⟨st, ∅, []⟩).faces_found_this_frame
    (faces.foldl (faceStep today time) ⟨st, ∅, []⟩).st.face_state name =
    some FState.LEFT_FRAME
  unfold updateDepartures
  rw [hm.1, h3]
  rw [if_neg (by simp)]

/-- Claim C4: (a) a name whose frame state is `IN_FRAME_FIRST_TIME` and which is
absent from the recognition results of a frame has state `LEFT_FRAME` after
that frame; (b) once a name's state is `LEFT_FRAME`, it stays `LEFT_FRAME`
through any further sequence of capture-loop iterations of the same day, even
if the name reappears in the recognized set.  (Part (b) carries the reachable
state facts `name ∈ marked_today` and `last_checked_date = some today`:
both hold in any state the loop can be in with `face_state name` set, by
`C8_face_state_subset_marked` and because `reset_daily_attendance` ran.) -/
theorem C4_frame_lifecycle :
    (∀ (st : State) (today time name : String) (faces : List (Option String)),
      st.face_state name = some FState.IN_FRAME_FIRST_TIME →
      (some name) ∉ faces →
      (processFrame today time faces st).1.face_state name = some FState.LEFT_FRAME) ∧
    (∀ (st : State) (today name : String) (frames : List FrameInput),
      st.last_checked_date = some today →
      (∀ f ∈ frames, f.today = today) →
      name ∈ st.marked_today →
      st.face_state name = some FState.LEFT_FRAME →
      (runLoop st frames).face_state name = some FState.LEFT_FRAME) := by
  constructor
  · intro st today time name faces hfs hna
    have habs := foldl_faceStep_absent today time name faces ⟨st, ∅, []⟩ hna (by simp)
    show updateDepartures (faces.foldl (faceStep today time) ⟨st, ∅, []⟩).faces_found_this_frame
      (faces.foldl (faceStep today time) ⟨st, ∅, []⟩).st.face_state name =
      some FState.LEFT_FRAME
    unfold updateDepartures
    rw [if_pos ⟨by rw [habs.1]; exact hfs, habs.2⟩]
  · intro st today name frames
    induction frames generalizing st with
    | nil => intro _ _ _ h3; exact h3
    | cons f t ih =>
      intro h1 hall h2 h3
      have hf : f.today = today := hall f (List.mem_cons_self f t)
      obtain ⟨t1, t2, t3⟩ := stepFrame_keeps_departed today f.time name f.faces st h1 h2 h3
      show (runLoop (stepFrame f.today f.time f.faces st).1 t).face_state name =
        some FState.LEFT_FRAME
      rw [hf]
      exact ih _ t1 (fun g hg => hall g (List.mem_cons_of_mem f hg)) t2 t3

/-- A state mid-day: Alice is marked present, currently `IN_FRAME_FIRST_TIME`. -/
def frameState1 : State :=
  { known_face_names := ["Alice"]
    marked_today := {"Alice"}
    face_state := fun n => if n = "Alice" then some FState.IN_FRAME_FIRST_TIME else none
    last_checked_date := some "2025-01-02"
    log := [⟨"2025-01-02", "09:00:00", "Alice", "Present"⟩] }

/-- Like `frameState1` but Alice has already left the frame once. -/
def frameState2 : State :=
  { frameState1 with
    face_state := fun n => if n = "Alice" then some FState.LEFT_FRAME else none }

/-- Witness for C4: Alice in `IN_FRAME_FIRST_TIME` departs on an empty frame;
once `LEFT_FRAME`, a later same-day frame in which Alice reappears leaves her
state at `LEFT_FRAME`. -/
theorem C4_frame_lifecycle_witness :
    (processFrame "2025-01-02" "09:00:30" [] frameState1).1.face_state "Alice" =
      some FState.LEFT_FRAME ∧
    (runLoop frameState2 [⟨"2025-01-02", "09:01:00", [some "Alice"]⟩]).face_state "Alice" =
      some FState.LEFT_FRAME := by
  constructor
  · exact C4_frame_lifecycle.1 frameState1 "2025-01-02" "09:00:30" "Alice" []
      (by simp [frameState1]) (by simp)
  · exact C4_frame_lifecycle.2 frameState2 "2025-01-02" "Alice"
      [⟨"2025-01-02", "09:01:00", [some "Alice"]⟩]
      (by simp [frameState2, frameState1]) (by simp)
      (by simp [frameState2, frameState1]) (by simp [frameState2, frameState1])

/-- Claim C5: the label produced for one face is "Not Available" when no known
signature matched; "Present: name" when the matched name was not yet present
today (and the name is then marked present: record appended, membership set);
"Present: name" when present today in state `IN_FRAME_FIRST_TIME`; and
"Already Present: name" when present today in state `LEFT_FRAME`. -/
theorem C5_face_labels (today time : String) (acc : FrameAcc) (name : String) :
    (faceStep today time acc none).labels_for_frame =
      acc.labels_for_frame ++ ["Not Available"] ∧
    (is_already_present_today acc.st name = false →
      (faceStep today time acc (some name)).labels_for_frame =
        acc.labels_for_frame ++ ["Present: " ++ name] ∧
      (faceStep today time acc (some name)).st.log =
        acc.st.log ++ [⟨today, time, name, "Present"⟩] ∧
      is_already_present_today (faceStep today time acc (some name)).st name = true) ∧
    (is_already_present_today acc.st name = true →
      acc.st.face_state name = some FState.IN_FRAME_FIRST_TIME →
      (faceStep today time acc (some name)).labels_for_frame =
        acc.labels_for_frame ++ ["Present: " ++ name]) ∧
    (is_already_present_today acc.st name = true →
      acc.st.face_state name = some FState.LEFT_FRAME →
      (faceStep today time acc (some name)).labels_for_frame =
        acc.labels_for_frame ++ ["Already Present: " ++ name]) := by
  refine ⟨rfl, ?_, ?_, ?_⟩
  · intro h
    have h' : name ∉ acc.st.marked_today := by
      simpa [is_already_present_today] using h
    refine ⟨?_, ?_, ?_⟩ <;>
      simp [faceStep, is_already_present_today, mark_attendance, h']
  · intro h h2
    simp only [faceStep, h2]
    rw [if_neg (by simp [h])]
  · intro h h2
    simp only [faceStep, h2]
    rw [if_neg (by simp [h])]

/-- A fresh-day accumulator whose state knows Bob but has nobody marked. -/
def accFresh : FrameAcc :=
  { st := { initState ["Bob"] [] with last_checked_date := some "2025-01-02" }
    faces_found_this_frame := ∅
    labels_for_frame := [] }

/-- Accumulator over `frameState1` (Alice marked, `IN_FRAME_FIRST_TIME`). -/
def accSeen : FrameAcc := ⟨frameState1, ∅, []⟩

/-- Accumulator over `frameState2` (Alice marked, `LEFT_FRAME`). -/
def accDeparted : FrameAcc := ⟨frameState2, ∅, []⟩

/-- Witness for C5: the four labelling cases at concrete inputs. -/
theorem C5_face_labels_witness :
    (faceStep "2025-01-02" "10:00:00" accFresh none).labels_for_frame =
      ["Not Available"] ∧
    (faceStep "2025-01-02" "10:00:00" accFresh (some "Bob")).labels_for_frame =
      ["Present: Bob"] ∧
    (faceStep "2025-01-02" "10:00:00" accSeen (some "Alice")).labels_for_frame =
      ["Present: Alice"] ∧
    (faceStep "2025-01-02" "10:00:00" accDeparted (some "Alice")).labels_for_frame =
      ["Already Present: Alice"] := by
  refine ⟨(C5_face_labels "2025-01-02" "10:00:00" accFresh "Bob").1, ?_, ?_, ?_⟩
  · have := ((C5_face_labels "2025-01-02" "10:00:00" accFresh "Bob").2.1
      (by simp [accFresh, initState, is_already_present_today])).1
    rw [this]; rfl
  · have := (C5_face_labels "2025-01-02" "10:00:00" accSeen "Alice").2.2.1
      (by simp [accSeen, frameState1, is_already_present_today])
      (by simp [accSeen, frameState1])
    rw [this]; rfl
  · have := (C5_face_labels "2025-01-02" "10:00:00" accDeparted "Alice").2.2.2
      (by simp [accDeparted, frameState2, frameState1, is_already_present_today])
      (by simp [accDeparted, frameState2, frameState1])
    rw [this]; rfl

/-- Claim C3: `mark_attendance` appends exactly one Present record for today to
the log and inserts the name into `marked_today`; for a name not yet present
today, `is_already_present_today` is false immediately before the call and
true immediately after it. -/
theorem C3_mark_attendance_postcondition (st : State) (today time name : String) :
    (mark_attendance today time name st).log =
      st.log ++ [⟨today, time, name, "Present"⟩] ∧
    (mark_attendance today time name st).marked_today = insert name st.marked_today ∧
    (name ∉ st.marked_today →
      is_already_present_today st name = false ∧
      is_already_present_today (mark_attendance today time name st) name = true) := by
  refine ⟨rfl, rfl, fun h => ⟨?_, ?_⟩⟩
  · simp [is_already_present_today, h]
  · simp [is_already_present_today, mark_attendance]

/-- Witness for C3: marking Bob in the fresh empty state flips
`is_already_present_today` from false to true and appends the record. -/
theorem C3_mark_attendance_postcondition_witness :
    is_already_present_today (initState [] []) "Bob" = false ∧
    is_already_present_today
      (mark_attendance "2025-01-02" "10:00:00" "Bob" (initState [] [])) "Bob" = true ∧
    (mark_attendance "2025-01-02" "10:00:00" "Bob" (initState [] [])).log =
      [⟨"2025-01-02", "10:00:00", "Bob", "Present"⟩] := by
  have h := C3_mark_attendance_postcondition (initState [] []) "2025-01-02" "10:00:00" "Bob"
  have hnot : "Bob" ∉ (initState [] [] : State).marked_today := by
    simp [initState]
  refine ⟨(h.2.2 hnot).1, (h.2.2 hnot).2, ?_⟩
  rw [h.1]
  rfl

/-- Witness for C8: after one frame in which Alice is recognized, Alice holds a
`face_state` entry, and the invariant places her in `marked_today`. -/
theorem C8_face_state_subset_marked_witness :
    (run (initState ["Alice"] []) [Step.frame "2025-01-02" "09:00:00" [some "Alice"]]).face_state
      "Alice" = some FState.IN_FRAME_FIRST_TIME ∧
    "Alice" ∈ (run (initState ["Alice"] [])
      [Step.frame "2025-01-02" "09:00:00" [some "Alice"]]).marked_today := by
  have hfs : (run (initState ["Alice"] [])
      [Step.frame "2025-01-02" "09:00:00" [some "Alice"]]).face_state "Alice" =
      some FState.IN_FRAME_FIRST_TIME := by decide
  exact ⟨hfs, C8_face_state_subset_marked ["Alice"] []
    [Step.frame "2025-01-02" "09:00:00" [some "Alice"]] "Alice"
    FState.IN_FRAME_FIRST_TIME hfs⟩

/-! ### Download endpoint (C6) -/

/-- Response classifiers for `/download_csv`. -/
def isBadRequest : DownloadResp → Bool
  | DownloadResp.badRequest _ => true
  | _ => false

def isUnauthorized : DownloadResp → Bool
  | DownloadResp.unauthorized _ => true
  | _ => false

def isNotFound : DownloadResp → Bool
  | DownloadResp.notFound _ => true
  | _ => false

/-- Claim C6 as stated: 400 exactly when `pwd` is missing, 401 exactly when a
supplied `pwd` differs from the secret, the file when `pwd` is the secret and
the file exists, "no records" when `pwd` is the secret and the file is
missing. -/
def downloadClaim : Prop :=
  ∀ (pwd : Option String) (attendance_file_exists : Bool),
    (isBadRequest (download_csv pwd attendance_file_exists) = true ↔ pwd = none) ∧
    (isUnauthorized (download_csv pwd attendance_file_exists) = true ↔
      (pwd ≠ none ∧ pwd ≠ some REQUIRED_PASSWORD)) ∧
    (pwd = some REQUIRED_PASSWORD → attendance_file_exists = true →
      download_csv pwd attendance_file_exists = DownloadResp.okFile) ∧
    (pwd = some REQUIRED_PASSWORD → attendance_file_exists = false →
      isNotFound (download_csv pwd attendance_file_exists) = true)

/-- Counterexample to C6 as stated: the request `?pwd=` supplies the empty
string, which is not missing and differs from the secret, yet Python's
`if not user_password` truthiness test answers with the 400 branch, not 401. -/
theorem C6_download_csv_counterexample : ¬ downloadClaim := by
  intro h
  have h1 := h (some "") true
  revert h1
  decide

/-- Claim C6 amended: a missing or empty `pwd` gets the 400 response; a
nonempty `pwd` differing from the secret gets 401; the secret gets the file
when it exists and the "no records" 404 otherwise. -/
theorem C6_download_csv_amended (pwd : Option String) (attendance_file_exists : Bool) :
    (isBadRequest (download_csv pwd attendance_file_exists) = true ↔
      (pwd = none ∨ pwd = some "")) ∧
    (isUnauthorized (download_csv pwd attendance_file_exists) = true ↔
      (pwd ≠ none ∧ pwd ≠ some "" ∧ pwd ≠ some REQUIRED_PASSWORD)) ∧
    (pwd = some REQUIRED_PASSWORD → attendance_file_exists = true →
      download_csv pwd attendance_file_exists = DownloadResp.okFile) ∧
    (pwd = some REQUIRED_PASSWORD → attendance_file_exists = false →
      isNotFound (download_csv pwd attendance_file_exists) = true) := by
  match pwd with
  | none =>
    refine ⟨by simp [download_csv, isBadRequest], by simp [download_csv, isUnauthorized], ?_, ?_⟩
      <;> intro hp <;> exact absurd hp (by simp)
  | some p =>
    by_cases hp : p = ""
    · subst hp
      refine ⟨by simp [download_csv, isBadRequest], ?_, ?_, ?_⟩
      · simp [download_csv, isUnauthorized]
      · intro hq; exact absurd (Option.some.inj hq) (by decide)
      · intro hq; exact absurd (Option.some.inj hq) (by decide)
    · by_cases hq : p = REQUIRED_PASSWORD
      · subst hq
        cases attendance_file_exists
        · refine ⟨?_, ?_, ?_, ?_⟩
          · simp [download_csv, isBadRequest, REQUIRED_PASSWORD]
          · simp [download_csv, isUnauthorized, REQUIRED_PASSWORD]
          · intro _ hx; exact absurd hx (by decide)
          · intro _ _; simp [download_csv, isNotFound, REQUIRED_PASSWORD]
        · refine ⟨?_, ?_, ?_, ?_⟩
          · simp [download_csv, isBadRequest, REQUIRED_PASSWORD]
          · simp [download_csv, isUnauthorized, REQUIRED_PASSWORD]
          · intro _ _; simp [download_csv, REQUIRED_PASSWORD]
          · intro _ hx; exact absurd hx (by decide)
      · refine ⟨?_, ?_, ?_, ?_⟩
        · simp [download_csv, isBadRequest, hp, hq]
        · simp [download_csv, isUnauthorized, hp, hq]
        · intro hx; exact absurd (Option.some.inj hx) hq
        · intro hx; exact absurd (Option.some.inj hx) hq

/-- Witness for the amended C6: the four behaviours at concrete requests. -/
theorem C6_download_csv_amended_witness :
    isBadRequest (download_csv (some "") true) = true ∧
    isUnauthorized (download_csv (some "guess") true) = true ∧
    download_csv (some "admin@123") true = DownloadResp.okFile ∧
    isNotFound (download_csv (some "admin@123") false) = true := by
  refine ⟨?_, ?_, ?_, ?_⟩
  · exact (C6_download_csv_amended (some "") true).1.mpr (Or.inr rfl)
  · exact (C6_download_csv_amended (some "guess") true).2.1.mpr (by decide)
  · exact (C6_download_csv_amended (some "admin@123") true).2.2.1 rfl rfl
  · exact (C6_download_csv_amended (some "admin@123") false).2.2.2 rfl rfl

/-! ### Statistics endpoints (C7, C9) -/

/-- Claim C7: the extended-stats body reports the gallery size, the number of
names present, absent = total - present (over ℤ, as in Python), and
percentage = present / total * 100 when the gallery is nonempty and 0 when it
is empty — never a division error (the quotient is modelled exactly on ℚ). -/
theorem C7_extended_attendance (st : State) :
    (extended_attendance st).1.total_students = st.known_face_names.length ∧
    (extended_attendance st).1.present = st.marked_today.card ∧
    (extended_attendance st).1.absent =
      (st.known_face_names.length : Int) - (st.marked_today.card : Int) ∧
    (0 < st.known_face_names.length →
      (extended_attendance st).1.percentage =
        (st.marked_today.card : ℚ) / (st.known_face_names.length : ℚ) * 100) ∧
    (st.known_face_names.length = 0 → (extended_attendance st).1.percentage = 0) := by
  refine ⟨rfl, rfl, rfl, ?_, ?_⟩
  · intro h
    simp [extended_attendance, h]
  · intro h
    simp [extended_attendance, h]

/-- A state with ten known people of whom three are present. -/
def tenState : State :=
  { known_face_names := ["n1", "n2", "n3", "n4", "n5", "n6", "n7", "n8", "n9", "n10"]
    marked_today := {"n1", "n2", "n3"}
    face_state := fun _ => none
    last_checked_date := some "2025-01-02"
    log := [] }

/-- Witness for C7 at the spec's example: 10 known, 3 present gives absent 7
and percentage 30. -/
theorem C7_extended_attendance_witness :
    0 < tenState.known_face_names.length ∧
    (extended_attendance tenState).1.total_students = 10 ∧
    (extended_attendance tenState).1.present = 3 ∧
    (extended_attendance tenState).1.absent = 7 ∧
    (extended_attendance tenState).1.percentage = 30 := by
  have h := C7_extended_attendance tenState
  have hlen : tenState.known_face_names.length = 10 := by decide
  have hcard : tenState.marked_today.card = 3 := by decide
  refine ⟨by decide, ?_, ?_, ?_, ?_⟩
  · rw [h.1, hlen]
  · rw [h.2.1, hcard]
  · rw [h.2.2.1, hlen, hcard]; decide
  · rw [h.2.2.2.1 (by rw [hlen]; decide), hlen, hcard]
    norm_num

/-- Claim C9: the two stats handlers assign to no module state — the state
component they return is the incoming state — and their bodies read only the
gallery size and `marked_today`, so any two states agreeing on those get
identical responses. -/
theorem C9_stats_read_only :
    (∀ st : State, (attendance_stats st).2 = st ∧ (extended_attendance st).2 = st) ∧
    (∀ s1 s2 : State, s1.known_face_names.length = s2.known_face_names.length →
      s1.marked_today = s2.marked_today →
      (attendance_stats s1).1 = (attendance_stats s2).1 ∧
      (extended_attendance s1).1 = (extended_attendance s2).1) := by
  refine ⟨fun st => ⟨rfl, rfl⟩, ?_⟩
  intro s1 s2 hk hm
  constructor
  · simp [attendance_stats, hk, hm]
  · simp [extended_attendance, hk, hm]

/-- Witness for C9: `tenState` and a same-counts state with a different log,
gallery order, and face state produce identical stats responses. -/
theorem C9_stats_read_only_witness :
    (attendance_stats tenState).2 = tenState ∧
    (attendance_stats
        { known_face_names := ["m1", "m2", "m3", "m4", "m5", "m6", "m7", "m8", "m9", "m10"]
          marked_today := {"n1", "n2", "n3"}
          face_state := fun n => if n = "n1" then some FState.LEFT_FRAME else none
          last_checked_date := none
          log := [⟨"2025-01-01", "08:00:00", "n1", "Present"⟩] }).1 =
      (attendance_stats tenState).1 := by
  have h := C9_stats_read_only
  refine ⟨(h.1 tenState).1, ?_⟩
  exact ((h.2 _ tenState (by decide) (by decide)).1)

/-! ### CSV reload row handling (C10) -/

theorem load_rows_short (today : String) :
    ∀ (rows : List (List String)) (s : Finset String),
      (∀ row ∈ rows, row.length ≤ 4) →
      ∃ t, load_rows today s rows = Except.ok t ∧
        ∀ n, n ∈ t ↔ (n ∈ s ∨ ∃ time, [today, time, n, "Present"] ∈ rows) := by
  intro rows
  induction rows with
  | nil =>
    intro s _
    exact ⟨s, rfl, by simp⟩
  | cons row rest ih =>
    intro s hlen
    have hrow : row.length ≤ 4 := hlen row (List.mem_cons_self _ _)
    have hrest : ∀ r ∈ rest, r.length ≤ 4 := fun r hr => hlen r (List.mem_cons_of_mem _ hr)
    rcases row with _ | ⟨a, _ | ⟨b, _ | ⟨c, _ | ⟨d, _ | ⟨e, tl⟩⟩⟩⟩⟩
    · obtain ⟨t, ht, hmem⟩ := ih s hrest
      refine ⟨t, by simp [load_rows, parseDataRow, ht], fun n => ?_⟩
      rw [hmem n]
      simp
    · obtain ⟨t, ht, hmem⟩ := ih s hrest
      refine ⟨t, by simp [load_rows, parseDataRow, ht], fun n => ?_⟩
      rw [hmem n]
      simp
    · obtain ⟨t, ht, hmem⟩ := ih s hrest
      refine ⟨t, by simp [load_rows, parseDataRow, ht], fun n => ?_⟩
      rw [hmem n]
      simp
    · obtain ⟨t, ht, hmem⟩ := ih s hrest
      refine ⟨t, by simp [load_rows, parseDataRow, ht], fun n => ?_⟩
      rw [hmem n]
      simp
    · by_cases hc : a = today ∧ d = "Present"
      · obtain ⟨ha, hd⟩ := hc
        subst ha hd
        obtain ⟨t, ht, hmem⟩ := ih (insert c s) hrest
        refine ⟨t, by simp [load_rows, parseDataRow, ht], fun n => ?_⟩
        rw [hmem n]
        simp only [Finset.mem_insert, List.mem_cons, List.cons.injEq]
        aesop
      · obtain ⟨t, ht, hmem⟩ := ih s hrest
        have hstep : parseDataRow today s [a, b, c, d] = Except.ok s := by
          simp [parseDataRow, if_neg hc]
        refine ⟨t, by simp [load_rows, hstep, ht], fun n => ?_⟩
        rw [hmem n]
        simp only [List.mem_cons, List.cons.injEq]
        aesop
    · exact absurd hrow (by simp)

/-- Claim C10: on a file whose data rows each have at most 4 fields (after the
header), `load_marked_today_from_csv` raises nothing, skips every row with
fewer than 4 fields, and returns exactly the third fields of the 4-field rows
dated today with status "Present". -/
theorem C10_load_tolerates_short_rows (today : String) (header : List String)
    (rows : List (List String)) (h : ∀ row ∈ rows, row.length ≤ 4) :
    ∃ s, load_marked_today_from_csv today (header :: rows) = Except.ok s ∧
      ∀ n, n ∈ s ↔ ∃ time, [today, time, n, "Present"] ∈ rows := by
  obtain ⟨t, ht, hmem⟩ := load_rows_short today rows ∅ h
  refine ⟨t, ht, fun n => ?_⟩
  rw [hmem n]
  simp

/-- A small concrete CSV: one short row, one row for another day, one
non-Present row, one Present row for today. -/
def csvRows : List (List String) :=
  [["2025-01-02", "08:00:00", "Alice", "Present"],
   ["short"],
   ["2025-01-01", "08:10:00", "Bob", "Present"],
   ["2025-01-02", "08:20:00", "Carol", "Absent"]]

/-- Witness for C10: the concrete file loads without error and the loaded set
is characterized by today's Present rows. -/
theorem C10_load_tolerates_short_rows_witness :
    (∀ row ∈ csvRows, row.length ≤ 4) ∧
    ∃ s, load_marked_today_from_csv "2025-01-02"
        (["Date", "Time", "Student Name", "Status"] :: csvRows) = Except.ok s ∧
      ∀ n, n ∈ s ↔ ∃ time, ["2025-01-02", time, n, "Present"] ∈ csvRows :=
  ⟨by decide, C10_load_tolerates_short_rows "2025-01-02"
    ["Date", "Time", "Student Name", "Status"] csvRows (by decide)⟩

/-! ### Coherence: the CSV loader agrees with the record-level reload -/

theorem load_rows_recordRows (today : String) :
    ∀ (log : List AttendanceRecord) (s : Finset String),
      load_rows today s (log.map recordRow) =
        Except.ok (log.foldl
          (fun s r => if r.date = today ∧ r.status = "Present" then insert r.name s else s)
          s) := by
  intro log
  induction log with
  | nil => intro s; rfl
  | cons r t ih =>
    intro s
    have hstep : parseDataRow today s (recordRow r) =
        Except.ok (if r.date = today ∧ r.status = "Present" then insert r.name s else s) := by
      simp [parseDataRow, recordRow]
    simp only [List.map_cons, load_rows, hstep, List.foldl_cons]
    exact ih _

theorem load_csv_agrees_marked_from_log (today : String) (header : List String)
    (log : List AttendanceRecord) :
    load_marked_today_from_csv today (header :: log.map recordRow) =
      Except.ok (marked_from_log log today) := by
  simp only [load_marked_today_from_csv, marked_from_log]
  exact load_rows_recordRows today log ∅

/-! ### The mark-once-per-day invariant (C2) -/

/-- Number of Present records in the log for a given name and date. -/
def presentCount (log : List AttendanceRecord) (name date : String) : Nat :=
  (log.filter
    (fun r => decide (r.name = name ∧ r.date = date ∧ r.status = "Present"))).length

/-- At most one Present record per (name, date) pair. -/
def AtMostOnce (log : List AttendanceRecord) : Prop :=
  ∀ name date, presentCount log name date ≤ 1

/-- Whenever a day has been checked, every name with a Present record for that
day in the log is in `marked_today`. -/
def SyncInv (st : State) : Prop :=
  ∀ name date, st.last_checked_date = some date →
    (∃ r ∈ st.log, r.name = name ∧ r.date = date ∧ r.status = "Present") →
    name ∈ st.marked_today

theorem presentCount_append (log : List AttendanceRecord) (r : AttendanceRecord)
    (name date : String) :
    presentCount (log ++ [r]) name date =
      presentCount log name date +
        (if r.name = name ∧ r.date = date ∧ r.status = "Present" then 1 else 0) := by
  unfold presentCount
  rw [List.filter_append, List.length_append]
  congr 1
  by_cases h : r.name = name ∧ r.date = date ∧ r.status = "Present"
  · simp [h]
  · simp [h]

theorem presentCount_eq_zero (log : List AttendanceRecord) (name date : String)
    (h : ∀ r ∈ log, ¬(r.name = name ∧ r.date = date ∧ r.status = "Present")) :
    presentCount log name date = 0 := by
  unfold presentCount
  rw [List.length_eq_zero, List.filter_eq_nil_iff]
  intro r hr
  simpa using h r hr

/-- Invariant carried through one capture-loop iteration after the date check:
the log has no Present duplicates, the checked date is today, and every name
with a Present record for today is in `marked_today`. -/
def LoopInv (today : String) (st : State) : Prop :=
  AtMostOnce st.log ∧ st.last_checked_date = some today ∧
    ∀ name, (∃ r ∈ st.log, r.name = name ∧ r.date = today ∧ r.status = "Present") →
      name ∈ st.marked_today

theorem reset_establishes_LoopInv (today : String) (st : State)
    (h1 : AtMostOnce st.log) (h2 : SyncInv st) :
    LoopInv today (reset_daily_attendance today st) := by
  unfold reset_daily_attendance
  split
  · refine ⟨h1, rfl, ?_⟩
    rintro name ⟨r, hr, hn, hd, hs⟩
    exact (mem_marked_from_log st.log today name).mpr ⟨r, hr, hd, hs, hn⟩
  · rename_i hlast
    push_neg at hlast
    refine ⟨h1, hlast, ?_⟩
    intro name hex
    exact h2 name today hlast hex

theorem faceStep_LoopInv (today time : String) (acc : FrameAcc) (face : Option String)
    (h : LoopInv today acc.st) : LoopInv today (faceStep today time acc face).st := by
  match face with
  | none => exact h
  | some m =>
    simp only [faceStep]
    split
    · rename_i hnm
      have hm : m ∉ acc.st.marked_today := by
        simpa [is_already_present_today] using hnm
      obtain ⟨h1, h2, h3⟩ := h
      have hzero : presentCount acc.st.log m today = 0 := by
        apply presentCount_eq_zero
        intro r hr hcontra
        exact hm (h3 m ⟨r, hr, hcontra.1, hcontra.2.1, hcontra.2.2⟩)
      refine ⟨?_, h2, ?_⟩
      · intro name date
        show presentCount (acc.st.log ++ [⟨today, time, m, "Present"⟩]) name date ≤ 1
        rw [presentCount_append]
        by_cases hcase : m = name ∧ today = date
        · obtain ⟨rfl, rfl⟩ := hcase
          simp [hzero]
        · have hneg : ¬((⟨today, time, m, "Present"⟩ : AttendanceRecord).name = name ∧
              (⟨today, time, m, "Present"⟩ : AttendanceRecord).date = date ∧
              (⟨today, time, m, "Present"⟩ : AttendanceRecord).status = "Present") := by
            intro hc
            exact hcase ⟨hc.1, hc.2.1⟩
          rw [if_neg hneg]
          simpa using h1 name date
      · rintro name ⟨r, hr, hn, hd, hs⟩
        show name ∈ insert m acc.st.marked_today
        have hr2 : r ∈ acc.st.log ++ [⟨today, time, m, "Present"⟩] := hr
        rw [List.mem_append] at hr2
        rcases hr2 with hr | hr
        · exact Finset.mem_insert_of_mem (h3 name ⟨r, hr, hn, hd, hs⟩)
        · rw [List.mem_singleton] at hr
          subst hr
          rw [← hn]
          exact Finset.mem_insert_self _ _
    · split <;> exact h

theorem foldl_faceStep_LoopInv (today time : String) :
    ∀ (faces : List (Option String)) (acc : FrameAcc), LoopInv today acc.st →
      LoopInv today ((faces.foldl (faceStep today time) acc).st) := by
  intro faces
  induction faces with
  | nil => intro acc h; exact h
  | cons f t ih =>
    intro acc h
    exact ih _ (faceStep_LoopInv today time acc f h)

theorem stepFrame_preserves (today time : String) (faces : List (Option String))
    (st : State) (h1 : AtMostOnce st.log) (h2 : SyncInv st) :
    AtMostOnce (stepFrame today time faces st).1.log ∧
    SyncInv (stepFrame today time faces st).1 := by
  have hreset := reset_establishes_LoopInv today st h1 h2
  obtain ⟨g1, g2, g3⟩ :=
    foldl_faceStep_LoopInv today time faces ⟨reset_daily_attendance today st, ∅, []⟩ hreset
  refine ⟨g1, ?_⟩
  intro name date hlast hex
  have hdate : date = today := by
    have : some date = some today := hlast.symm.trans g2
    exact Option.some.inj this
  subst hdate
  exact g3 name hex

theorem runLoop_preserves (frames : List FrameInput) :
    ∀ st : State, AtMostOnce st.log → SyncInv st →
      AtMostOnce (runLoop st frames).log ∧ SyncInv (runLoop st frames) := by
  induction frames with
  | nil => intro st h1 h2; exact ⟨h1, h2⟩
  | cons f t ih =>
    intro st h1 h2
    have hstep := stepFrame_preserves f.today f.time f.faces st h1 h2
    exact ih _ hstep.1 hstep.2

/-- Claim C2: starting from process start with a log holding at most one
Present record per (name, date), every state reachable by running the capture
loop still holds at most one Present record per (name, date): each iteration
re-syncs `marked_today` on a day change, every append site first checks
`is_already_present_today`, and every append also inserts the name into
`marked_today`. -/
theorem C2_mark_once_per_day (known : List String) (log0 : List AttendanceRecord)
    (frames : List FrameInput) (h : AtMostOnce log0) :
    AtMostOnce (runLoop (initState known log0) frames).log := by
  have hsync : SyncInv (initState known log0) := by
    intro name date hlast
    simp [initState] at hlast
  exact (runLoop_preserves frames (initState known log0) h hsync).1

/-- Two frames that both recognize Alice, the first one twice in the same
frame. -/
def aliceFrames : List FrameInput :=
  [⟨"2025-01-02", "09:00:00", [some "Alice", some "Alice"]⟩,
   ⟨"2025-01-02", "09:01:00", [some "Alice"]⟩]

/-- Witness for C2: after Alice is recognized three times across two frames of
the same day, the log holds exactly one record, so at most one Present record
for Alice today. -/
theorem C2_mark_once_per_day_witness :
    (runLoop (initState ["Alice"] []) aliceFrames).log.length = 1 ∧
    presentCount (runLoop (initState ["Alice"] []) aliceFrames).log "Alice" "2025-01-02" ≤ 1 := by
  constructor
  · decide
  · exact C2_mark_once_per_day ["Alice"] [] aliceFrames
      (fun name date => by simp [presentCount]) "Alice" "2025-01-02"

end Facelog
